import Mathlib
/-!
Verification of the koreader-highlights-collector core: a shallow embedding of
the Lua metadata-file parser (`core/parser.py`), the annotation classifier
(`core/schemas.py`) and the import/dedup engine (`tasks.py import_file`),
with theorems checking the natural-language specification against it.

Python strings are modelled as `List Char`; absent optional values as
`none`; the persisted store (Book / Highlight / HighlightDevice / Note
rows) as explicit lists threaded through the import function.
-/
/-- Python strings are modelled as lists of characters. -/
abbrev Str := List Char
/-- Characters written via code points to keep literals simple. -/
def dquote : Char := Char.ofNat 34
def squote : Char := Char.ofNat 39
def bslash : Char := Char.ofNat 92
def lbrace : Char := Char.ofNat 123
def rbrace : Char := Char.ofNat 125
def nulChar : Char := Char.ofNat 0
/-- The characters of a Lean string literal, as the `Str` model. -/
def strOf (s : String) : Str := s.data
/-- Python `\s` for the ASCII range: space, tab, newline, CR, VT, FF. -/
def pyWhitespace (c : Char) : Bool :=
  c == ' ' || c == '\t' || c == '\n' || c == '\r' || c == '\x0b' || c == '\x0c'
/-- Python truthiness of a string: non-empty. -/
def truthyS (s : Str) : Bool := s != []
/-- Python truthiness of an optional string: present and non-empty. -/
def truthyO (s : Option Str) : Bool :=
  match s with
  | none => false
  | some v => v != []
/-! ## `core/schemas.py` -/
/-- `HighlightKind` from `core/schemas.py`. -/
inductive HighlightKind where
  | highlight
  | highlight_empty
  | highlight_no_position
  | bookmark
  | unknown
deriving DecidableEq, Repr
/-- `ParserAnnotation` from `core/schemas.py`: one raw parsed annotation
block; every field optional (absent when the pattern did not match). The
`kind` attribute set by the `set_kind` validator is modelled by the
function `setKind` below (the fields are never mutated afterwards). -/
structure ParserAnn where
  chapter : Option Str := none
  color : Option Str := none
  datetime : Option Str := none
  page : Option Str := none
  text : Option Str := none
  drawer : Option Str := none
  pos0 : Option Str := none
  pos1 : Option Str := none
  pageno : Option Nat := none
deriving DecidableEq, Repr
/-- `ParserAnnotation.set_kind` from `core/schemas.py` lines 26-42:
classify from truthiness of color / text / (pos0 and pos1). -/
def setKind (a : ParserAnn) : HighlightKind :=
  let has_color := truthyO a.color
  let has_text := truthyO a.text
  let has_positions := truthyO a.pos0 && truthyO a.pos1
  if has_color && has_text && has_positions then .highlight
  else if has_color && has_positions && !has_text then .highlight_empty
  else if has_color && !has_positions then .highlight_no_position
  else if !has_color && has_text then .bookmark
  else .unknown
/-- `DocProps` from `core/schemas.py`. -/
structure DocProps where
  authors : Option Str := none
  title : Option Str := none
  language : Option Str := none
  description : Option Str := none
  identifiers : Option Str := none
  series : Option Str := none
deriving DecidableEq, Repr
/-- `ParsedFile` from `core/schemas.py` (the field `partial_md5_checksum`
is rendered `partialMd5Checksum`). -/
structure ParsedFile where
  doc_props : DocProps := {}
  annotations : List ParserAnn := []
  partialMd5Checksum : Option Str := none
  doc_path : Option Str := none
deriving DecidableEq, Repr
/-! ## `core/parser.py`: string unescaping -/
/-- Python `str.replace`, fuelled so that the kernel can evaluate it: scan
left to right, replace non-overlapping occurrences of `pat`. The fuel is
the input length, which suffices because each step consumes at least one
input character (the parser only ever uses non-empty patterns; an empty
pattern is treated as matching nothing). -/
def replaceFuel (pat repl : Str) : Nat → Str → Str
  | _, [] => []
  | 0, s => s
  | Nat.succ fuel, c :: rest =>
    if pat ≠ [] ∧ pat.isPrefixOf (c :: rest) then
      repl ++ replaceFuel pat repl fuel (List.drop pat.length (c :: rest))
    else
      c :: replaceFuel pat repl fuel rest
/-- Python `s.replace(pat, repl)` for non-empty `pat`. -/
def pyReplace (s pat repl : Str) : Str := replaceFuel pat repl s.length s
/-- `LuaTableParser._unescape_lua_string` (`core/parser.py` lines 73-87):
replace `\\` by a NUL sentinel first, then the five simple escapes, then
restore the sentinel to a single backslash. -/
def unescapeLuaString (s : Str) : Str :=
  let s := pyReplace s [bslash, bslash] [nulChar]
  let s := pyReplace s [bslash, dquote] [dquote]
  let s := pyReplace s [bslash, squote] [squote]
  let s := pyReplace s [bslash, 'n'] ['\n']
  let s := pyReplace s [bslash, 'r'] ['\r']
  let s := pyReplace s [bslash, 't'] ['\t']
  pyReplace s [nulChar] [bslash]
/-! ## `core/parser.py`: regex-pattern machinery

The parser uses `re.search` with a handful of fixed patterns. Each pattern
is embedded as a deterministic matcher at a position plus a leftmost
search that tries every start position in order, which is exactly
the `re.search` semantics for these patterns (greedy pieces are followed by
characters their preceding class can never match, so no backtracking
changes the result; the one place backtracking matters, the quoted-value
capture, is modelled exactly in `capQuoted`). -/
/-- Match a literal, returning the rest of the input. -/
def matchLit (lit : Str) (s : Str) : Option Str :=
  if lit.isPrefixOf s then some (List.drop lit.length s) else none
/-- The value-and-closing-quote part `((?:[^"\]|\.)*)"` of the
string-field pattern, with exact greedy/backtracking semantics: a unit is
either a character other than quote and backslash (newline included), or
a backslash followed by any character except newline (`.` without
`DOTALL`); the capture ends at the first position where no unit applies
and a closing quote is present. Returns the capture and the rest after
the closing quote. -/
def capQuoted : Str → Option (Str × Str)
  | [] => none
  | c :: rest =>
    if c = dquote then some ([], rest)
    else if c = bslash then
      match rest with
      | [] => none
      | d :: rest2 =>
        if d = '\n' then none
        else
          match capQuoted rest2 with
          | some (cap, rem) => some (c :: d :: cap, rem)
          | none => none
    else
      match capQuoted rest with
      | some (cap, rem) => some (c :: cap, rem)
      | none => none
/-- The literal `["name"]` that starts each field pattern. -/
def fieldKeyPat (name : Str) : Str :=
  '[' :: dquote :: name ++ [dquote, ']']
/-- Attempt `\["name"\]\s*=\s*"((?:[^"\]|\.)*)"` at the current position,
returning the captured group. -/
def matchStrFieldAt (name : Str) (s : Str) : Option Str :=
  match matchLit (fieldKeyPat name) s with
  | none => none
  | some r1 =>
    match List.dropWhile pyWhitespace r1 with
    | '=' :: r3 =>
      match List.dropWhile pyWhitespace r3 with
      | q :: r5 => if q = dquote then (capQuoted r5).map Prod.fst else none
      | [] => none
    | _ => none
/-- `re.search` for the string-field pattern: leftmost position wins. -/
def searchStrField (name : Str) : Str → Option Str
  | [] => none
  | c :: rest =>
    match matchStrFieldAt name (c :: rest) with
    | some v => some v
    | none => searchStrField name rest
/-- Attempt `\["name"\]\s*=\s*"([^"]*)"` at the current position (the
simpler pattern used for `doc_path` / `partial_md5_checksum`): capture up
to the first quote, which must exist. -/
def matchSimpleFieldAt (name : Str) (s : Str) : Option Str :=
  match matchLit (fieldKeyPat name) s with
  | none => none
  | some r1 =>
    match List.dropWhile pyWhitespace r1 with
    | '=' :: r3 =>
      match List.dropWhile pyWhitespace r3 with
      | q :: r5 =>
        if q = dquote then
          let cap := List.takeWhile (fun c => c ≠ dquote) r5
          if cap.length < r5.length then some cap else none
        else none
      | [] => none
    | _ => none
/-- `re.search` for the simple quoted-field pattern. -/
def searchSimpleField (name : Str) : Str → Option Str
  | [] => none
  | c :: rest =>
    match matchSimpleFieldAt name (c :: rest) with
    | some v => some v
    | none => searchSimpleField name rest
/-- Digits-to-integer, as Python `int` on a `\d+` capture. -/
def digitsToNat (ds : Str) : Nat :=
  ds.foldl (fun n c => 10 * n + (c.toNat - 48)) 0
/-- Attempt `\["pageno"\]\s*=\s*(\d+)` at the current position. -/
def matchPagenoAt (s : Str) : Option Nat :=
  match matchLit (fieldKeyPat (strOf "pageno")) s with
  | none => none
  | some r1 =>
    match List.dropWhile pyWhitespace r1 with
    | '=' :: r3 =>
      let r4 := List.dropWhile pyWhitespace r3
      let ds := List.takeWhile Char.isDigit r4
      if ds = [] then none else some (digitsToNat ds)
    | _ => none
/-- `re.search` for the `pageno` pattern. -/
def searchPageno : Str → Option Nat
  | [] => none
  | c :: rest =>
    match matchPagenoAt (c :: rest) with
    | some v => some v
    | none => searchPageno rest
/-! ## `core/parser.py`: brace scanning and table extraction -/
/-- The scanning loop of `LuaTableParser._extract_field_value` lines
55-71, entered just after the opening brace with depth already 1:
accumulate characters until the depth returns to zero; `none` when the
braces never balance (the Python loop runs out and returns `None`). -/
def braceScanGo : Str → Nat → Str → Option Str
  | [], _, _ => none
  | c :: rest, depth, acc =>
    if c = rbrace then
      if depth = 1 then some acc.reverse
      else braceScanGo rest (depth - 1) (c :: acc)
    else if c = lbrace then braceScanGo rest (depth + 1) (c :: acc)
    else braceScanGo rest depth (c :: acc)
/-- Text strictly between an opening brace at the head of `s` and its
matching close brace. -/
def braceInner : Str → Option Str
  | [] => none
  | c :: rest => if c = lbrace then braceScanGo rest 1 [] else none
/-- Attempt `\["name"\]\s*=\s*\{` at the current position, returning the
input from the opening brace on (the Python code records the index
of the brace and scans onward from it). -/
def matchTableFieldAt (name : Str) (s : Str) : Option Str :=
  match matchLit (fieldKeyPat name) s with
  | none => none
  | some r1 =>
    match List.dropWhile pyWhitespace r1 with
    | '=' :: r3 =>
      match List.dropWhile pyWhitespace r3 with
      | c :: r5 => if c = lbrace then some (c :: r5) else none
      | [] => none
    | _ => none
/-- `re.search` for the table-field pattern. -/
def searchTableField (name : Str) : Str → Option Str
  | [] => none
  | c :: rest =>
    match matchTableFieldAt name (c :: rest) with
    | some v => some v
    | none => searchTableField name rest
/-- `LuaTableParser._extract_field_value` (`core/parser.py` lines 46-71):
locate `["name"] = {` and return the text between that brace and its
match found by depth counting. -/
def extractFieldValue (name : Str) (s : Str) : Option Str :=
  match searchTableField name s with
  | none => none
  | some atBrace => braceInner atBrace
/-! ## `core/parser.py`: `_parse_annotations` -/
/-- Python `s.split('\n')`. -/
def splitNl : Str → List Str
  | [] => [[]]
  | c :: rest =>
    let r := splitNl rest
    if c = '\n' then [] :: r
    else
      match r with
      | h :: t => (c :: h) :: t
      | [] => [[c]]
/-- Python `re.match` of `\s*\[\d+\]\s*=\s*\x7b` against the line: does an annotation-array
index assignment start this line? -/
def isBlockStart (line : Str) : Bool :=
  match List.dropWhile pyWhitespace line with
  | '[' :: r1 =>
    let ds := List.takeWhile Char.isDigit r1
    if ds = [] then false
    else
      match List.dropWhile Char.isDigit r1 with
      | ']' :: r3 =>
        match List.dropWhile pyWhitespace r3 with
        | '=' :: r4 =>
          match List.dropWhile pyWhitespace r4 with
          | c :: _ => c = lbrace
          | [] => false
        | _ => false
      | _ => false
  | _ => false
/-- Occurrences of a character in a line (Python `line.count(c)`). -/
def countChar (c : Char) (line : Str) : Nat :=
  (line.filter (fun x => x = c)).length
/-- State of the block-assembly loop in `_parse_annotations` lines
91-110. `current` holds the lines of the block being assembled, in
order. -/
structure BlockSt where
  blocks : List Str
  current : List Str
  depth : Int
  inAnn : Bool
/-- One iteration of the block-assembly loop. A block-start line flushes
any current block and opens a new one with depth forced to 1 (braces on
the start line itself are not counted); other lines are appended while
inside a block, adjusting the depth by the brace counts of the line and
closing the block when it returns to zero; lines outside any block are
dropped. -/
def blockStep (st : BlockSt) (line : Str) : BlockSt :=
  if isBlockStart line then
    let blocks :=
      if st.current ≠ [] then st.blocks ++ [List.intercalate ['\n'] st.current]
      else st.blocks
    { blocks := blocks, current := [line], depth := 1, inAnn := true }
  else if st.inAnn then
    let current := st.current ++ [line]
    let depth := st.depth + (countChar lbrace line : Int) - (countChar rbrace line : Int)
    if depth = 0 then
      { blocks := st.blocks ++ [List.intercalate ['\n'] current],
        current := [], depth := depth, inAnn := false }
    else
      { st with current := current, depth := depth }
  else st
/-- The blocks recovered from the raw annotations-array text. A trailing
block whose braces never rebalance is dropped, exactly as in the source
(the loop ends without flushing `current`). -/
def annBlocks (s : Str) : List Str :=
  ((splitNl s).foldl blockStep
    { blocks := [], current := [], depth := 0, inAnn := false }).blocks
/-- Field extraction for one block (`_parse_annotations` lines 112-122):
nine patterns tried independently; a `ParserAnnotation` is built only
when at least one matched (`if values:`). -/
def parseAnnBlock (block : Str) : Option ParserAnn :=
  let chapter := (searchStrField (strOf "chapter") block).map unescapeLuaString
  let color := (searchStrField (strOf "color") block).map unescapeLuaString
  let datetime := (searchStrField (strOf "datetime") block).map unescapeLuaString
  let page := (searchStrField (strOf "page") block).map unescapeLuaString
  let text := (searchStrField (strOf "text") block).map unescapeLuaString
  let drawer := (searchStrField (strOf "drawer") block).map unescapeLuaString
  let pos0 := (searchStrField (strOf "pos0") block).map unescapeLuaString
  let pos1 := (searchStrField (strOf "pos1") block).map unescapeLuaString
  let pageno := searchPageno block
  if chapter = none ∧ color = none ∧ datetime = none ∧ page = none ∧
      text = none ∧ drawer = none ∧ pos0 = none ∧ pos1 = none ∧ pageno = none then
    none
  else
    some { chapter := chapter, color := color, datetime := datetime,
           page := page, text := text, drawer := drawer,
           pos0 := pos0, pos1 := pos1, pageno := pageno }
/-- `LuaTableParser._parse_annotations` (`core/parser.py` lines 89-123). -/
def parseAnnotations (s : Str) : List ParserAnn :=
  (annBlocks s).filterMap parseAnnBlock
/-- `LuaTableParser._parse_doc_props` (`core/parser.py` lines 125-132). -/
def parseDocProps (s : Str) : DocProps :=
  { authors := (searchStrField (strOf "authors") s).map unescapeLuaString,
    title := (searchStrField (strOf "title") s).map unescapeLuaString,
    language := (searchStrField (strOf "language") s).map unescapeLuaString,
    description := (searchStrField (strOf "description") s).map unescapeLuaString,
    identifiers := (searchStrField (strOf "identifiers") s).map unescapeLuaString,
    series := (searchStrField (strOf "series") s).map unescapeLuaString }
/-- `LuaTableParser._parse_table` (`core/parser.py` lines 22-44). The
`if annotations_str:` / `if doc_props_str:` truthiness checks skip both a
missing and an empty extraction. -/
def parseTable (lua : Str) : ParsedFile :=
  let annotations :=
    match extractFieldValue (strOf "annotations") lua with
    | some s => if s ≠ [] then parseAnnotations s else []
    | none => []
  let doc_props :=
    match extractFieldValue (strOf "doc_props") lua with
    | some s => if s ≠ [] then parseDocProps s else {}
    | none => {}
  { doc_props := doc_props,
    annotations := annotations,
    partialMd5Checksum := searchSimpleField (strOf "partial_md5_checksum") lua,
    doc_path := searchSimpleField (strOf "doc_path") lua }
/-! ## `core/parser.py`: `parse_file`

`parse_file` runs `re.search` with pattern `return\s+(\x7b.*\x7d)` under `re.DOTALL`:
the leftmost position where `return`, at least one whitespace character
and an opening brace appear, the greedy group then extending to the LAST
closing brace anywhere in the remaining input. -/
/-- Split off the text before the last closing brace of `s`; `none` when
`s` has no closing brace. -/
def lastBraceSplit (s : Str) : Option Str :=
  match List.dropWhile (fun c => c ≠ rbrace) s.reverse with
  | [] => none
  | _ :: t => some t.reverse
/-- Attempt `return\s+({.*})` (DOTALL) at the current position, returning
group 1 (braces included). -/
def matchReturnAt (s : Str) : Option Str :=
  match matchLit (strOf "return") s with
  | none => none
  | some r1 =>
    match r1 with
    | c :: _ =>
      if pyWhitespace c then
        match List.dropWhile pyWhitespace r1 with
        | b :: r3 =>
          if b = lbrace then
            match lastBraceSplit r3 with
            | some mid => some (lbrace :: mid ++ [rbrace])
            | none => none
          else none
        | [] => none
      else none
    | [] => none
/-- `re.search` over all start positions for the `return` table. -/
def findReturnTable : Str → Option Str
  | [] => none
  | c :: rest =>
    match matchReturnAt (c :: rest) with
    | some t => some t
    | none => findReturnTable rest
/-- `LuaTableParser.parse_file` (`core/parser.py` lines 10-20), on file
contents that were already read and decoded: no `return {...}` match
produces the empty `ParsedFile`. -/
def parseContent (content : Str) : ParsedFile :=
  match findReturnTable content with
  | none => {}
  | some lua => parseTable lua
/-! ## SHA-256 (`hashlib.sha256(...).hexdigest()` in `tasks.py` line 186)

A direct FIPS-180-4 implementation over `Nat` with explicit `% 2 ^ 32`
masking, so the deterministic 64-hex-character fallback book key can be
computed and reasoned about. -/
/-- 32-bit modulus. -/
def w32 : Nat := 4294967296
/-- 32-bit right rotation. -/
def rotr (n x : Nat) : Nat := ((x >>> n) ||| (x <<< (32 - n))) % w32
def smallSigma0 (x : Nat) : Nat := (rotr 7 x) ^^^ (rotr 18 x) ^^^ (x >>> 3)
def smallSigma1 (x : Nat) : Nat := (rotr 17 x) ^^^ (rotr 19 x) ^^^ (x >>> 10)
def bigSigma0 (x : Nat) : Nat := (rotr 2 x) ^^^ (rotr 13 x) ^^^ (rotr 22 x)
def bigSigma1 (x : Nat) : Nat := (rotr 6 x) ^^^ (rotr 11 x) ^^^ (rotr 25 x)
/-- SHA-256 round constants. -/
def K256 : List Nat :=
  [1116352408, 1899447441, 3049323471, 3921009573, 961987163, 1508970993,
   2453635748, 2870763221, 3624381080, 310598401, 607225278, 1426881987,
   1925078388, 2162078206, 2614888103, 3248222580, 3835390401, 4022224774,
   264347078, 604807628, 770255983, 1249150122, 1555081692, 1996064986,
   2554220882, 2821834349, 2952996808, 3210313671, 3336571891, 3584528711,
   113926993, 338241895, 666307205, 773529912, 1294757372, 1396182291,
   1695183700, 1986661051, 2177026350, 2456956037, 2730485921, 2820302411,
   3259730800, 3345764771, 3516065817, 3600352804, 4094571909, 275423344,
   430227734, 506948616, 659060556, 883997877, 958139571, 1322822218,
   1537002063, 1747873779, 1955562222, 2024104815, 2227730452, 2361852424,
   2428436474, 2756734187, 3204031479, 3329325298]
/-- SHA-256 initial hash value. -/
def H256 : List Nat :=
  [1779033703, 3144134277, 1013904242, 2773480762,
   1359893119, 2600822924, 528734635, 1541459225]
/-- Big-endian bytes of a value, fixed width. -/
def toBytesBE : Nat → Nat → List Nat
  | 0, _ => []
  | Nat.succ k, v => toBytesBE k (v / 256) ++ [v % 256]
/-- Message padding: `0x80`, zeros to 56 mod 64, then the 64-bit
big-endian bit length. -/
def sha256Pad (m : List Nat) : List Nat :=
  let L := m.length
  let zeros := (64 - ((L + 9) % 64)) % 64
  m ++ 128 :: List.replicate zeros 0 ++ toBytesBE 8 (8 * L)
/-- Big-endian 32-bit words from bytes. -/
def bytesToWords : List Nat → List Nat
  | a :: b :: c :: d :: rest =>
    (((a * 256 + b) * 256 + c) * 256 + d) :: bytesToWords rest
  | _ => []
/-- Split a word list into 16-word blocks (fuelled for kernel
evaluation; the fuel is the list length, far more than needed). -/
def chunk16Fuel : Nat → List Nat → List (List Nat)
  | _, [] => []
  | 0, _ => []
  | Nat.succ f, ws => ws.take 16 :: chunk16Fuel f (ws.drop 16)
/-- Extend the message schedule; the accumulated schedule is kept in
reverse (most recent word first). -/
def extendScheduleRev : Nat → List Nat → List Nat
  | 0, wrev => wrev
  | Nat.succ k, wrev =>
    let nw := (smallSigma1 (wrev.getD 1 0) + wrev.getD 6 0 +
               smallSigma0 (wrev.getD 14 0) + wrev.getD 15 0) % w32
    extendScheduleRev k (nw :: wrev)
/-- The 64-word message schedule of one block. -/
def schedule (block : List Nat) : List Nat :=
  (extendScheduleRev 48 block.reverse).reverse
/-- One compression round on the eight working registers. -/
def compressStep (st : List Nat) (kw : Nat × Nat) : List Nat :=
  match st with
  | [a, b, c, d, e, f, g, h] =>
    let ch := (e &&& f) ^^^ ((e ^^^ (w32 - 1)) &&& g)
    let maj := (a &&& b) ^^^ (a &&& c) ^^^ (b &&& c)
    let t1 := (h + bigSigma1 e + ch + kw.1 + kw.2) % w32
    let t2 := (bigSigma0 a + maj) % w32
    [(t1 + t2) % w32, a, b, c, (d + t1) % w32, e, f, g]
  | other => other
/-- Compress one 16-word block into the running hash. -/
def compressBlock (H : List Nat) (block : List Nat) : List Nat :=
  let st := ((K256.zip (schedule block)).foldl compressStep H)
  (H.zip st).map (fun p => (p.1 + p.2) % w32)
/-- SHA-256 of a byte list, as eight 32-bit words. -/
def sha256Words (msg : List Nat) : List Nat :=
  let ws := bytesToWords (sha256Pad msg)
  (chunk16Fuel ws.length ws).foldl compressBlock H256
/-- Lowercase hex digit. -/
def hexDigit (n : Nat) : Char :=
  if n < 10 then Char.ofNat (48 + n) else Char.ofNat (87 + n)
/-- Eight lowercase hex digits of a 32-bit word. -/
def wordToHex (x : Nat) : Str :=
  [hexDigit ((x / 268435456) % 16), hexDigit ((x / 16777216) % 16),
   hexDigit ((x / 1048576) % 16), hexDigit ((x / 65536) % 16),
   hexDigit ((x / 4096) % 16), hexDigit ((x / 256) % 16),
   hexDigit ((x / 16) % 16), hexDigit (x % 16)]
/-- `hashlib.sha256(bytes).hexdigest()`. -/
def sha256Hex (msg : List Nat) : Str :=
  ((sha256Words msg).map wordToHex).flatten
/-- UTF-8 bytes of one character (`str.encode("utf-8")`; Lean `Char`
carries no surrogates, so `errors="ignore"` never fires). -/
def utf8EncodeChar (c : Char) : List Nat :=
  let n := c.toNat
  if n < 128 then [n]
  else if n < 2048 then [192 + n / 64, 128 + n % 64]
  else if n < 65536 then [224 + n / 4096, 128 + (n / 64) % 64, 128 + n % 64]
  else [240 + n / 262144, 128 + (n / 4096) % 64, 128 + (n / 64) % 64, 128 + n % 64]
/-- `s.encode("utf-8", errors="ignore")`. -/
def utf8Encode (s : Str) : List Nat := (s.map utf8EncodeChar).flatten
/-- `hashlib.sha256(base.encode("utf-8", errors="ignore")).hexdigest()`. -/
def sha256HexOfStr (s : Str) : Str := sha256Hex (utf8Encode s)
/-! ## `tasks.py`: title/key derivation helpers -/
/-- Lowercasing as applied by Python `str.lower()` and SQL `LOWER`. -/
def lowerStr (s : Str) : Str := s.map Char.toLower
/-- `re.sub(r"\s+", " ", s)`: collapse each whitespace run to one space
(fuelled on the input length, which each step strictly consumes). -/
def collapseWsFuel : Nat → Str → Str
  | _, [] => []
  | 0, s => s
  | Nat.succ f, c :: rest =>
    if pyWhitespace c then ' ' :: collapseWsFuel f (List.dropWhile pyWhitespace rest)
    else c :: collapseWsFuel f rest
def collapseWs (s : Str) : Str := collapseWsFuel s.length s
/-- Python `str.strip()`. -/
def stripWs (s : Str) : Str :=
  ((List.dropWhile pyWhitespace s).reverse.dropWhile pyWhitespace).reverse
/-- Split on a separator character (used for `/` path components). -/
def splitSep (sep : Char) : Str → List Str
  | [] => [[]]
  | c :: rest =>
    let r := splitSep sep rest
    if c = sep then [] :: r
    else
      match r with
      | h :: t => (c :: h) :: t
      | [] => [[c]]
/-- `Path(path).parent.name` for a POSIX-style path without `.`/`..`
components: the last directory component before the file name, or the
empty string when there is none. -/
def parentName (path : Str) : Str :=
  ((splitSep '/' path).dropLast).getLastD []
/-- The folder-derived title candidate (`tasks.py` lines 148-152): the
name of the parent folder, a case-insensitive trailing `.sdr` stripped,
underscores turned to spaces, stripped. -/
def folderTitleOf (path : Str) : Str :=
  let parent := parentName path
  let ft :=
    if (strOf ".sdr").isSuffixOf (lowerStr parent) then
      parent.take (parent.length - 4)
    else parent
  stripWs (ft.map (fun c => if c = '_' then ' ' else c))
/-- `title_candidate` (`tasks.py` lines 153-157): the doc-props title if
truthy, else the folder title, the whole turned into `None` if empty. -/
def titleCandidateOf (parsed : ParsedFile) (path : Str) : Option Str :=
  let ft := folderTitleOf path
  let t :=
    match parsed.doc_props.title with
    | some s => if s ≠ [] then s else ft
    | none => ft
  if t = [] then none else some t
/-- `norm_title` (`tasks.py` line 158): whitespace-collapsed, stripped,
lowercased, `None` when empty. -/
def normTitleOf (tc : Option Str) : Option Str :=
  let n := lowerStr (stripWs (collapseWs (tc.getD [])))
  if n = [] then none else some n
/-! ## `tasks.py`: the persisted store -/
/-- A `Book` row (`app/models.py`), restricted to the columns the import
engine reads or writes. `none` models SQL NULL. -/
structure DBBook where
  id : Nat
  checksum : Str
  raw_title : Option Str := none
  raw_authors : Option Str := none
  identifiers : Option Str := none
  language : Option Str := none
  description : Option Str := none
  file_path : Option Str := none
  clean_title : Option Str := none
  clean_authors : Option Str := none
deriving DecidableEq, Repr
/-- A `Highlight` row. The import engine always writes concrete strings
(`ann.x or ""`), a concrete page number (`ann.pageno or 0`) and one of
the three highlight kinds. -/
structure DBHighlight where
  id : Nat
  book_id : Nat
  text : Str
  chapter : Str
  page_number : Nat
  datetime : Str
  color : Str
  drawer : Str
  device_id : Str
  page_xpath : Str
  kind : HighlightKind
deriving DecidableEq, Repr
/-- A `Note` row. -/
structure DBNote where
  book_id : Nat
  text : Str
  datetime : Str
  device_id : Str
deriving DecidableEq, Repr
/-- The persisted store: list order is insertion order, which is what the
unordered `.first()` queries observe in this embedding. `HighlightDevice`
rows are (highlight id, device id) pairs. -/
structure Store where
  books : List DBBook
  highlights : List DBHighlight
  highlight_devices : List (Nat × Str)
  notes : List DBNote
  nextBookId : Nat
  nextHighlightId : Nat
deriving DecidableEq, Repr
def emptyStore : Store :=
  { books := [], highlights := [], highlight_devices := [], notes := [],
    nextBookId := 0, nextHighlightId := 0 }
/-- The three kinds deduplicated as highlights. -/
def kind3 (k : HighlightKind) : Bool :=
  k == .highlight || k == .highlight_empty || k == .highlight_no_position
/-! ## `tasks.py`: `import_file` -/
/-- `Book.query.filter_by(checksum=...).first()`. -/
def findByChecksum (s : Store) (ck : Str) : Option DBBook :=
  s.books.find? (fun b => b.checksum == ck)
/-- The title lookup (`tasks.py` lines 167-170 and 175-178):
`lower(clean_title) == norm_title` first, then `lower(raw_title)`. -/
def findByTitle (s : Store) (nt : Str) : Option DBBook :=
  match s.books.find? (fun b =>
      match b.clean_title with
      | some t => lowerStr t == nt
      | none => false) with
  | some b => some b
  | none =>
    s.books.find? (fun b =>
      match b.raw_title with
      | some t => lowerStr t == nt
      | none => false)
/-- Book resolution (`tasks.py` lines 160-178): by checksum when one is
present (truthy), falling back — and when absent, going directly — to
the title lookup, which runs only when a norm title exists. -/
def resolveBook (s : Store) (ck : Option Str) (nt : Option Str) : Option DBBook :=
  if truthyO ck then
    match findByChecksum s (ck.getD []) with
    | some b => some b
    | none =>
      match nt with
      | some n => findByTitle s n
      | none => none
  else
    match nt with
    | some n => findByTitle s n
    | none => none
/-- Key of a newly created book (`tasks.py` lines 181-188): the parsed
checksum when truthy, else the SHA-256 hex digest of the norm title or,
failing that, the file path. -/
def bookKey (ck : Option Str) (nt : Option Str) (path : Str) : Str :=
  if truthyO ck then ck.getD []
  else sha256HexOfStr (nt.getD path)
/-- Field population on the resolved or created book (`tasks.py` lines
190-202): `raw_title` and `clean_title` only when currently falsy; the
four doc-props fields and `file_path` via `x = new or x`, i.e. replaced
whenever the incoming value is truthy. -/
def updateBookFields (b : DBBook) (parsed : ParsedFile) (tc : Option Str) : DBBook :=
  let b := if truthyO b.raw_title then b else { b with raw_title := tc }
  let b := { b with
    raw_authors :=
      if truthyO parsed.doc_props.authors then parsed.doc_props.authors else b.raw_authors,
    identifiers :=
      if truthyO parsed.doc_props.identifiers then parsed.doc_props.identifiers else b.identifiers,
    language :=
      if truthyO parsed.doc_props.language then parsed.doc_props.language else b.language,
    description :=
      if truthyO parsed.doc_props.description then parsed.doc_props.description else b.description }
  let b := if truthyO b.clean_title then b else { b with clean_title := tc }
  { b with
    file_path := if truthyO parsed.doc_path then parsed.doc_path else b.file_path }
/-- Resolve or create the book and apply the field updates, returning the
store after the flush together with the owning book id. -/
def importBookPhase (s : Store) (parsed : ParsedFile) (path : Str) :
    Store × Nat :=
  let tc := titleCandidateOf parsed path
  let nt := normTitleOf tc
  let ck := parsed.partialMd5Checksum
  match resolveBook s ck nt with
  | some b =>
    let b2 := updateBookFields b parsed tc
    ({ s with books := s.books.map (fun x => if x.id == b.id then b2 else x) }, b.id)
  | none =>
    let key := bookKey ck nt path
    let b2 := updateBookFields { id := s.nextBookId, checksum := key } parsed tc
    ({ s with books := s.books ++ [b2], nextBookId := s.nextBookId + 1 },
     s.nextBookId)
/-- Backfill of an existing matched highlight (`tasks.py` lines 248-260):
fill empty chapter / datetime / page_xpath / color, and adopt a positive
page number over the 0 sentinel. -/
def backfillHighlight (ex : DBHighlight) (a : ParserAnn) : DBHighlight :=
  let ex := if !truthyS ex.chapter && truthyO a.chapter then
      { ex with chapter := a.chapter.getD [] } else ex
  let ex := if !truthyS ex.datetime && truthyO a.datetime then
      { ex with datetime := a.datetime.getD [] } else ex
  let ex := if !truthyS ex.page_xpath && truthyO a.page then
      { ex with page_xpath := a.page.getD [] } else ex
  let ex := if !truthyS ex.color && truthyO a.color then
      { ex with color := a.color.getD [] } else ex
  if ex.page_number == 0 && (match a.pageno with | some n => decide (0 < n) | none => false) then
    { ex with page_number := a.pageno.getD 0 }
  else ex
/-- Processing of one annotation (`tasks.py` lines 207-284): textual
bookmarks become Notes; the three highlight kinds are deduplicated by
exact text within the book; unknown kinds are dropped. The accumulator
carries the store and the `imported` counter. -/
def processAnn (bookId : Nat) (device : Str) (acc : Store × Nat)
    (a : ParserAnn) : Store × Nat :=
  let s := acc.1
  let imported := acc.2
  let kind := setKind a
  if kind == .bookmark && truthyO a.text then
    ({ s with notes := s.notes ++
        [{ book_id := bookId, text := a.text.getD [],
           datetime := a.datetime.getD [], device_id := device }] },
     imported + 1)
  else if kind3 kind then
    let txt := a.text.getD []
    match s.highlights.find? (fun h =>
        h.book_id == bookId && h.text == txt && kind3 h.kind) with
    | some ex =>
      let s :=
        if truthyS device then
          if s.highlight_devices.any (fun p => p.1 == ex.id && p.2 == device) then s
          else { s with highlight_devices := s.highlight_devices ++ [(ex.id, device)] }
        else s
      let ex2 := backfillHighlight ex a
      ({ s with highlights :=
          s.highlights.map (fun h => if h.id == ex.id then ex2 else h) },
       imported)
    | none =>
      let h : DBHighlight :=
        { id := s.nextHighlightId, book_id := bookId, text := txt,
          chapter := a.chapter.getD [], page_number := a.pageno.getD 0,
          datetime := a.datetime.getD [], color := a.color.getD [],
          drawer := a.drawer.getD [], device_id := device,
          page_xpath := a.page.getD [], kind := kind }
      let s := { s with highlights := s.highlights ++ [h],
                        nextHighlightId := s.nextHighlightId + 1 }
      let s :=
        if truthyS device then
          { s with highlight_devices := s.highlight_devices ++ [(h.id, device)] }
        else s
      (s, imported + 1)
  else (s, imported)
/-- The task `import_file` (`tasks.py` lines 133-292). `content` is the
text of the file when it could be read and decoded, `none` when reading
raised (the engine logs and returns 0). Returns the committed store and
the `imported` count. -/
def importFile (s : Store) (content : Option Str) (path : Str)
    (device : Str) : Store × Nat :=
  match content with
  | none => (s, 0)
  | some text =>
    let parsed := parseContent text
    let bp := importBookPhase s parsed path
    parsed.annotations.foldl (processAnn bp.2 device) (bp.1, 0)
/-- A whole scan: one `import_file` call per discovered file, in
sequence; each triple is (content, path, device id). -/
def runImports (files : List (Option Str × Str × Str)) : Store :=
  files.foldl (fun s f => (importFile s f.1 f.2.1 f.2.2).1) emptyStore

/-! ## Inputs and spec-side definitions used by the claim theorems -/
/-- The decision table of the claim (spec §4.2), stated on the three
predicates: (T,T,T) highlight, (T,F,T) highlight_empty, (T,*,F)
highlight_no_position, (F,T,*) bookmark, otherwise unknown. -/
def specKindTable (hasColor hasText hasPositions : Bool) : HighlightKind :=
  match hasColor, hasText, hasPositions with
  | true, true, true => .highlight
  | true, false, true => .highlight_empty
  | true, _, false => .highlight_no_position
  | false, true, _ => .bookmark
  | false, false, _ => .unknown
/-- Does `pat` occur as a contiguous subsequence of `s`? -/
def containsSeq (pat : Str) : Str → Bool
  | [] => pat.isPrefixOf []
  | c :: rest => pat.isPrefixOf (c :: rest) || containsSeq pat rest
/-- The table body as the CLAIM (spec §4.1 step 1) describes it, for
comparison: from the first `{` after a `return` keyword to its
syntactically matching `}` found by brace-depth counting. -/
def matchReturnSpecAt (s : Str) : Option Str :=
  match matchLit (strOf "return") s with
  | none => none
  | some r1 =>
    match r1 with
    | c :: _ =>
      if pyWhitespace c then
        match List.dropWhile pyWhitespace r1 with
        | b :: r3 =>
          if b = lbrace then
            (braceInner (b :: r3)).map (fun inner => lbrace :: inner ++ [rbrace])
          else none
        | [] => none
      else none
    | [] => none
/-- Leftmost search for the brace-counted table body of the claim. -/
def specReturnTableBody : Str → Option Str
  | [] => none
  | c :: rest =>
    match matchReturnSpecAt (c :: rest) with
    | some t => some t
    | none => specReturnTableBody rest
/-- File text: checksum `ck2`, title `T`, authors `X`. -/
def fileAuthorsX : Str :=
  strOf "return \x7b\n[\"partial_md5_checksum\"] = \"ck2\",\n[\"doc_props\"] = \x7b\n[\"title\"] = \"T\",\n[\"authors\"] = \"X\"\n\x7d,\n\x7d"
/-- File text: checksum `ck2`, title `T`, authors `Y`. -/
def fileAuthorsY : Str :=
  strOf "return \x7b\n[\"partial_md5_checksum\"] = \"ck2\",\n[\"doc_props\"] = \x7b\n[\"title\"] = \"T\",\n[\"authors\"] = \"Y\"\n\x7d,\n\x7d"
/-- Two highlight rows clash for the dedup key: same book, both of the
three deduplicated kinds, identical text. -/
def dedupClash (h1 h2 : DBHighlight) : Prop :=
  h1.book_id = h2.book_id ∧ kind3 h1.kind = true ∧ kind3 h2.kind = true ∧
    h1.text = h2.text
/-- Store invariant maintained by the import engine: highlight ids are
below the id counter and pairwise distinct, and no two rows clash. -/
def StoreInv (s : Store) : Prop :=
  (∀ h ∈ s.highlights, h.id < s.nextHighlightId) ∧
  s.highlights.Pairwise (fun h1 h2 => h1.id ≠ h2.id ∧ ¬ dedupClash h1 h2)
/-- The dedup-relevant projection of a highlight row. -/
def hlKey (h : DBHighlight) : Nat × Nat × HighlightKind × Str :=
  (h.id, h.book_id, h.kind, h.text)
/-- File text with checksum `ck1` and one `highlight`-kind annotation
with text `Same text`; imported below once per device. -/
def fileDevShared : Str :=
  strOf "return \x7b\n[\"partial_md5_checksum\"] = \"ck1\",\n[\"annotations\"] = \x7b\n[1] = \x7b\n[\"color\"] = \"y\",\n[\"pos0\"] = \"p\",\n[\"pos1\"] = \"q\",\n[\"text\"] = \"Same text\"\n\x7d,\n\x7d,\n\x7d"
/-- File with checksum `ck3` and one `highlight_empty` annotation (color
and positions, no text). -/
def fileNoText1 : Str :=
  strOf "return \x7b\n[\"partial_md5_checksum\"] = \"ck3\",\n[\"annotations\"] = \x7b\n[1] = \x7b\n[\"color\"] = \"y\",\n[\"pos0\"] = \"p\",\n[\"pos1\"] = \"q\"\n\x7d,\n\x7d,\n\x7d"
/-- File with checksum `ck3` and one `highlight_no_position` annotation
(color and a page number, no text, no positions). -/
def fileNoText2 : Str :=
  strOf "return \x7b\n[\"partial_md5_checksum\"] = \"ck3\",\n[\"annotations\"] = \x7b\n[1] = \x7b\n[\"color\"] = \"z\",\n[\"pageno\"] = 7\n\x7d,\n\x7d,\n\x7d"
/-- File text with no checksum, doc-props title `A  B` (double space)
and one `highlight`-kind annotation. -/
def fileWsTitle : Str :=
  strOf "return \x7b\n[\"doc_props\"] = \x7b\n[\"title\"] = \"A  B\"\n\x7d,\n[\"annotations\"] = \x7b\n[1] = \x7b\n[\"color\"] = \"y\",\n[\"pos0\"] = \"p\",\n[\"pos1\"] = \"q\",\n[\"text\"] = \"T\"\n\x7d,\n\x7d,\n\x7d"
/-! ## Claim C4: the classifier -/
/-- C4: `classify` (= `set_kind`) is a total function of every
`RawAnnotation`, determined solely by the three presence predicates
`hasColor`, `hasText`, `hasPositions`, and agrees with the decision
table of the claim on all eight combinations (being a Lean function it can
neither raise nor return more than one kind). -/
theorem spec2proof_c4 (a : ParserAnn) :
    setKind a =
      specKindTable (truthyO a.color) (truthyO a.text)
        (truthyO a.pos0 && truthyO a.pos1) := by
  cases h1 : truthyO a.color <;>
    cases h2 : truthyO a.text <;>
      cases h3 : truthyO a.pos0 && truthyO a.pos1 <;>
        simp [setKind, specKindTable, h1, h2, h3]
/-! ## Claim C5: unescaping -/
/-- C5: unescaping resolves the escapes without re-interpreting an
escaped backslash: `\\` + `n` yields backslash-`n` (not a newline), `\n`
yields a newline, and the quote, single-quote, CR and tab escapes
resolve analogously; this
also holds with surrounding context characters. -/
theorem spec2proof_c5 :
    unescapeLuaString [bslash, bslash, 'n'] = [bslash, 'n'] ∧
    unescapeLuaString [bslash, 'n'] = ['\n'] ∧
    unescapeLuaString [bslash, dquote] = [dquote] ∧
    unescapeLuaString [bslash, squote] = [squote] ∧
    unescapeLuaString [bslash, 'r'] = ['\r'] ∧
    unescapeLuaString [bslash, 't'] = ['\t'] ∧
    unescapeLuaString (strOf "x\\\\ny") = strOf "x\\ny" ∧
    unescapeLuaString (strOf "x\\ny") = strOf "x\ny" := by decide
/-! ## Claim C7: parser tolerance and read-failure handling -/
/-- Auxiliary: without an occurrence of `return` there is no table. -/
theorem findReturnTable_eq_none_of_no_return (content : Str)
    (h : containsSeq (strOf "return") content = false) :
    findReturnTable content = none := by
  induction content with
  | nil => rfl
  | cons c rest ih =>
    rw [containsSeq, Bool.or_eq_false_iff] at h
    have hpre : (strOf "return").isPrefixOf (c :: rest) = false := h.1
    rw [findReturnTable]
    rw [matchReturnAt, matchLit, hpre]
    simp only [Bool.false_eq_true, if_false]
    exact ih h.2
/-- C7: the parser is a total function of the file text and degrades to
the empty document: whenever the `return {...}` pattern fails to match
(in particular whenever the text does not even contain `return`), every
field of the result is absent; and when reading the file raises, the
engine returns the store untouched with count 0. -/
theorem spec2proof_c7 :
    (∀ content : Str, findReturnTable content = none →
        parseContent content = ({} : ParsedFile)) ∧
    (∀ content : Str, containsSeq (strOf "return") content = false →
        parseContent content = ({} : ParsedFile)) ∧
    (∀ (s : Store) (path device : Str), importFile s none path device = (s, 0)) := by
  refine ⟨fun content h => ?_, fun content h => ?_, fun s path device => rfl⟩
  · rw [parseContent, h]
  · rw [parseContent, findReturnTable_eq_none_of_no_return content h]
/-- Witness for C7 at a concrete malformed file text. -/
theorem spec2proof_c7_witness :
    parseContent (strOf "this file has no table, just words") = ({} : ParsedFile) ∧
    importFile emptyStore none (strOf "a/metadata.x.lua") (strOf "d") = (emptyStore, 0) :=
  ⟨spec2proof_c7.2.1 _ (by decide), spec2proof_c7.2.2 _ _ _⟩
/-! ## Claim C10: blocks with no recognized field emit nothing -/
/-- C10: a block in which none of the nine recognized fields matches
produces no annotation; hence every annotation the parser emits has at
least one field present, and the output can be shorter than the list of
index blocks. -/
theorem spec2proof_c10 :
    (∀ block : Str,
        searchStrField (strOf "chapter") block = none →
        searchStrField (strOf "color") block = none →
        searchStrField (strOf "datetime") block = none →
        searchStrField (strOf "page") block = none →
        searchStrField (strOf "text") block = none →
        searchStrField (strOf "drawer") block = none →
        searchStrField (strOf "pos0") block = none →
        searchStrField (strOf "pos1") block = none →
        searchPageno block = none →
        parseAnnBlock block = none) ∧
    (∀ (s : Str) (a : ParserAnn), a ∈ parseAnnotations s →
        (a.chapter ≠ none ∨ a.color ≠ none ∨ a.datetime ≠ none ∨
         a.page ≠ none ∨ a.text ≠ none ∨ a.drawer ≠ none ∨
         a.pos0 ≠ none ∨ a.pos1 ≠ none ∨ a.pageno ≠ none)) ∧
    (∀ s : Str, (parseAnnotations s).length ≤ (annBlocks s).length) := by
  refine ⟨?_, ?_, ?_⟩
  · intro block h1 h2 h3 h4 h5 h6 h7 h8 h9
    rw [parseAnnBlock, h1, h2, h3, h4, h5, h6, h7, h8, h9]
    simp
  · intro s a ha
    rw [parseAnnotations, List.mem_filterMap] at ha
    obtain ⟨block, _, hb⟩ := ha
    rw [parseAnnBlock] at hb
    by_cases hc :
        ((searchStrField (strOf "chapter") block).map unescapeLuaString = none ∧
         (searchStrField (strOf "color") block).map unescapeLuaString = none ∧
         (searchStrField (strOf "datetime") block).map unescapeLuaString = none ∧
         (searchStrField (strOf "page") block).map unescapeLuaString = none ∧
         (searchStrField (strOf "text") block).map unescapeLuaString = none ∧
         (searchStrField (strOf "drawer") block).map unescapeLuaString = none ∧
         (searchStrField (strOf "pos0") block).map unescapeLuaString = none ∧
         (searchStrField (strOf "pos1") block).map unescapeLuaString = none ∧
         searchPageno block = none)
    · rw [if_pos hc] at hb
      exact absurd hb (by simp)
    · rw [if_neg hc] at hb
      obtain ⟨rfl⟩ := Option.some.injEq .. ▸ hb
      · push_neg at hc
        tauto
  · intro s
    exact List.length_filterMap_le _ _
/-! ## Claim C6: what `parse_file` takes as the table body -/
/-- A successful literal match says the input is the literal followed by
the rest. -/
theorem matchLit_spec : ∀ (lit s r : Str), matchLit lit s = some r → s = lit ++ r := by
  intro lit
  induction lit with
  | nil =>
    intro s r h
    rw [matchLit] at h
    simp only [List.isPrefixOf, if_true, List.drop_zero] at h
    cases h
    rfl
  | cons c cs ih =>
    intro s r h
    cases s with
    | nil => rw [matchLit] at h; simp [List.isPrefixOf] at h
    | cons b bs =>
      rw [matchLit] at h
      simp only [List.isPrefixOf] at h
      by_cases hcb : (c == b) = true
      · by_cases hp : cs.isPrefixOf bs = true
        · simp only [hcb, hp, Bool.and_self, if_true] at h
          have hb : c = b := by simpa using hcb
          have hr : r = List.drop cs.length bs := by
            cases h
            simp [List.drop_succ_cons]
          have hbs : bs = cs ++ List.drop cs.length bs := by
            apply ih
            rw [matchLit, hp]
            simp
          subst hb
          subst hr
          simpa [List.cons_append] using hbs
        · simp [hp] at h
      · simp [hcb] at h
/-- The first element surviving `dropWhile` fails the predicate. -/
theorem dropWhile_head_false {p : Char → Bool} :
    ∀ {l : Str} {a : Char} {t : Str}, List.dropWhile p l = a :: t → p a = false := by
  intro l
  induction l with
  | nil => intro a t h; simp at h
  | cons c rest ih =>
    intro a t h
    rw [List.dropWhile_cons] at h
    by_cases hp : p c = true
    · rw [if_pos hp] at h
      exact ih h
    · rw [if_neg hp] at h
      cases h
      simpa using hp
/-- `lastBraceSplit` splits off exactly the text before the last closing
brace: the remainder after it contains no further closing brace. -/
theorem lastBraceSplit_spec {s mid : Str} (h : lastBraceSplit s = some mid) :
    ∃ post, s = mid ++ rbrace :: post ∧ rbrace ∉ post := by
  rw [lastBraceSplit] at h
  rcases hd : List.dropWhile (fun c => c ≠ rbrace) s.reverse with _ | ⟨a, t⟩
  · rw [hd] at h; cases h
  · rw [hd] at h
    obtain rfl : t.reverse = mid := by cases h; rfl
    have ha : a = rbrace := by simpa using dropWhile_head_false hd
    subst ha
    have hsplit := List.takeWhile_append_dropWhile (fun c => c ≠ rbrace) s.reverse
    rw [hd] at hsplit
    have hs := congrArg List.reverse hsplit
    simp only [List.reverse_append, List.reverse_cons, List.reverse_reverse] at hs
    refine ⟨(List.takeWhile (fun c => c ≠ rbrace) s.reverse).reverse, ?_, ?_⟩
    · nth_rewrite 1 [← hs]
      simp
    · intro hmem
      rw [List.mem_reverse] at hmem
      have := List.mem_takeWhile_imp hmem
      simp at this
/-- A successful `matchReturnAt` produces a body that starts with `{`,
ends with `}`, and is followed in the input only by text free of `}`. -/
theorem matchReturnAt_spec {s body : Str} (h : matchReturnAt s = some body) :
    ∃ pre post, s = pre ++ body ++ post ∧ body.head? = some lbrace ∧
      body.getLast? = some rbrace ∧ rbrace ∉ post := by
  rw [matchReturnAt] at h
  split at h
  · cases h
  next r1 hml =>
    split at h
    next c r1t =>
      split at h
      next hws =>
        split at h
        next b r3 hdw =>
          split at h
          next hb =>
            split at h
            next mid hlb =>
              obtain rfl : lbrace :: mid ++ [rbrace] = body := by cases h; rfl
              obtain ⟨post, hr3, hpost⟩ := lastBraceSplit_spec hlb
              have hs : s = strOf "return" ++ (c :: r1t) := matchLit_spec _ _ _ hml
              have hsplit := List.takeWhile_append_dropWhile pyWhitespace (c :: r1t)
              rw [hdw] at hsplit
              subst hb
              refine ⟨strOf "return" ++ List.takeWhile pyWhitespace (c :: r1t), post,
                ?_, rfl, ?_, hpost⟩
              · rw [hs]
                nth_rewrite 1 [← hsplit]
                rw [hr3]
                simp
              · show ((lbrace :: mid) ++ [rbrace]).getLast? = some rbrace
                exact List.getLast?_concat _
            · cases h
          · cases h
        · cases h
      · cases h
    · cases h
/-- C6 (amended): the body `parse_file` hands to `_parse_table` is a
`{`-opened segment that extends to the LAST `}` of the file text — no
closing brace occurs after it. -/
theorem spec2proof_c6 :
    ∀ (content body : Str), findReturnTable content = some body →
      ∃ pre post, content = pre ++ body ++ post ∧ body.head? = some lbrace ∧
        body.getLast? = some rbrace ∧ rbrace ∉ post := by
  intro content
  induction content with
  | nil => intro body h; cases h
  | cons c rest ih =>
    intro body h
    rw [findReturnTable] at h
    rcases hm : matchReturnAt (c :: rest) with _ | t
    · rw [hm] at h
      obtain ⟨pre, post, h1, h2, h3, h4⟩ := ih body h
      exact ⟨c :: pre, post, by simp [h1, List.append_assoc], h2, h3, h4⟩
    · rw [hm] at h
      cases h
      exact matchReturnAt_spec hm
/-- Witness for C6 (amended) at a concrete file text whose last `}` is
not the brace-matched one. -/
theorem spec2proof_c6_witness :
    ∃ pre post,
      strOf "x return \x7b\x7d y \x7d z" = pre ++ strOf "\x7b\x7d y \x7d" ++ post ∧
      (strOf "\x7b\x7d y \x7d").head? = some lbrace ∧
      (strOf "\x7b\x7d y \x7d").getLast? = some rbrace ∧ rbrace ∉ post :=
  spec2proof_c6 _ _ (by decide)
/-- C6 counterexample: on a file whose table is followed by further text
containing a `}`, the greedy body taken by the parser differs from the
brace-counted body of the claim, and field extraction sees — and here actually
extracts a checksum from — text lying beyond the syntactically matching
`}`, which the claim rules out. -/
theorem spec2proof_c6_counterexample :
    findReturnTable (strOf "return \x7b \x7d [\"partial_md5_checksum\"] = \"E\" \x7d") ≠
      specReturnTableBody (strOf "return \x7b \x7d [\"partial_md5_checksum\"] = \"E\" \x7d") ∧
    (parseContent (strOf "return \x7b \x7d [\"partial_md5_checksum\"] = \"E\" \x7d")).partialMd5Checksum =
      some (strOf "E") ∧
    (parseTable ((specReturnTableBody
        (strOf "return \x7b \x7d [\"partial_md5_checksum\"] = \"E\" \x7d")).getD [])).partialMd5Checksum =
      none := by decide
/-! ## Claim C2: which book fields are first-writer-wins -/
/-- C2 counterexample: a book whose `rawAuthors` already holds the
non-empty value `X` has it overwritten to `Y` by a subsequent import
resolving (by checksum) to the same book — the claim says the field is
left unchanged. -/
theorem spec2proof_c2_counterexample :
    ((importFile emptyStore (some fileAuthorsX) (strOf "a/metadata.x.lua")
        (strOf "d")).1.books.map (fun b => (b.id, b.raw_authors))) =
      [(0, some (strOf "X"))] ∧
    ((importFile
        (importFile emptyStore (some fileAuthorsX) (strOf "a/metadata.x.lua")
          (strOf "d")).1
        (some fileAuthorsY) (strOf "a/metadata.x.lua")
        (strOf "d")).1.books.map (fun b => (b.id, b.raw_authors))) =
      [(0, some (strOf "Y"))] := by decide
/-- C2 (amended): on the book an import resolves to, `rawTitle` is
written only when currently empty and `cleanTitle` is seeded only when
unset, but `rawAuthors`, `identifiers`, `language`, `description` and
`filePath` follow `x = new or x`: they are overwritten whenever the
incoming value is non-empty and kept only when it is empty or absent. -/
theorem spec2proof_c2 (b : DBBook) (parsed : ParsedFile) (tc : Option Str) :
    (truthyO b.raw_title = true →
      (updateBookFields b parsed tc).raw_title = b.raw_title) ∧
    (truthyO b.clean_title = true →
      (updateBookFields b parsed tc).clean_title = b.clean_title) ∧
    ((updateBookFields b parsed tc).raw_authors =
      if truthyO parsed.doc_props.authors then parsed.doc_props.authors
      else b.raw_authors) ∧
    ((updateBookFields b parsed tc).identifiers =
      if truthyO parsed.doc_props.identifiers then parsed.doc_props.identifiers
      else b.identifiers) ∧
    ((updateBookFields b parsed tc).language =
      if truthyO parsed.doc_props.language then parsed.doc_props.language
      else b.language) ∧
    ((updateBookFields b parsed tc).description =
      if truthyO parsed.doc_props.description then parsed.doc_props.description
      else b.description) ∧
    ((updateBookFields b parsed tc).file_path =
      if truthyO parsed.doc_path then parsed.doc_path else b.file_path) := by
  unfold updateBookFields
  by_cases h1 : truthyO b.raw_title = true <;>
    by_cases h2 : truthyO b.clean_title = true <;>
      simp [h1, h2]
/-- Witness for C2 (amended): a concrete book with every field held,
against an import supplying a different non-empty authors value. -/
theorem spec2proof_c2_witness :
    (updateBookFields
        { id := 0, checksum := strOf "k", raw_title := some (strOf "R"),
          raw_authors := some (strOf "X"), clean_title := some (strOf "C") }
        { doc_props := { authors := some (strOf "Y") } } (some (strOf "T"))).raw_title =
      some (strOf "R") ∧
    (updateBookFields
        { id := 0, checksum := strOf "k", raw_title := some (strOf "R"),
          raw_authors := some (strOf "X"), clean_title := some (strOf "C") }
        { doc_props := { authors := some (strOf "Y") } } (some (strOf "T"))).clean_title =
      some (strOf "C") ∧
    (updateBookFields
        { id := 0, checksum := strOf "k", raw_title := some (strOf "R"),
          raw_authors := some (strOf "X"), clean_title := some (strOf "C") }
        { doc_props := { authors := some (strOf "Y") } } (some (strOf "T"))).raw_authors =
      if truthyO (some (strOf "Y")) then some (strOf "Y") else some (strOf "X") :=
  ⟨(spec2proof_c2 _ _ _).1 (by decide), (spec2proof_c2 _ _ _).2.1 (by decide),
    (spec2proof_c2 _ _ _).2.2.1⟩
/-! ## Claims C3 and C9: the per-book text-dedup invariant -/
/-- Backfilling never touches id, book, text or kind. -/
theorem backfill_fields (ex : DBHighlight) (a : ParserAnn) :
    (backfillHighlight ex a).id = ex.id ∧
    (backfillHighlight ex a).book_id = ex.book_id ∧
    (backfillHighlight ex a).text = ex.text ∧
    (backfillHighlight ex a).kind = ex.kind := by
  simp only [backfillHighlight]
  repeat' split
  all_goals simp
/-- With pairwise-distinct ids, an id determines the row. -/
theorem eq_of_mem_id {l : List DBHighlight}
    (hp : l.Pairwise (fun h1 h2 => h1.id ≠ h2.id ∧ ¬ dedupClash h1 h2)) :
    ∀ x ∈ l, ∀ y ∈ l, x.id = y.id → x = y := by
  induction l with
  | nil => intro x hx; simp at hx
  | cons a t ih =>
    rw [List.pairwise_cons] at hp
    intro x hx y hy hid
    rcases List.mem_cons.mp hx with hxa | hx
    · rcases List.mem_cons.mp hy with hya | hy
      · rw [hxa, hya]
      · exact absurd (by rw [← hxa]; exact hid) (hp.1 y hy).1
    · rcases List.mem_cons.mp hy with hya | hy
      · exact absurd (by rw [← hya]; exact hid.symm) (hp.1 x hx).1
      · exact ih hp.2 x hx y hy hid

/-- The invariant relation factors through `hlKey`. -/
theorem invRel_of_keys {a a' b b' : DBHighlight}
    (ha : hlKey a' = hlKey a) (hb : hlKey b' = hlKey b)
    (h : a.id ≠ b.id ∧ ¬ dedupClash a b) :
    a'.id ≠ b'.id ∧ ¬ dedupClash a' b' := by
  rw [hlKey, hlKey, Prod.mk.injEq, Prod.mk.injEq, Prod.mk.injEq] at ha hb
  obtain ⟨ha1, ha2, ha3, ha4⟩ := ha
  obtain ⟨hb1, hb2, hb3, hb4⟩ := hb
  refine ⟨by rw [ha1, hb1]; exact h.1, ?_⟩
  intro hcl
  exact h.2 ⟨ha2 ▸ hb2 ▸ hcl.1, ha3 ▸ hcl.2.1, hb3 ▸ hcl.2.2.1,
    ha4 ▸ hb4 ▸ hcl.2.2.2⟩
/-- `processAnn` preserves the store invariant. -/
theorem processAnn_inv {bid : Nat} {dev : Str} {acc : Store × Nat} {a : ParserAnn}
    (hinv : StoreInv acc.1) : StoreInv (processAnn bid dev acc a).1 := by
  obtain ⟨hlt, hpw⟩ := hinv
  by_cases h1 : (setKind a == HighlightKind.bookmark && truthyO a.text) = true
  · simp only [processAnn, h1, if_true]
    exact ⟨hlt, hpw⟩
  by_cases h2 : kind3 (setKind a) = true
  · rcases hfind : acc.1.highlights.find? (fun h =>
        h.book_id == bid && h.text == a.text.getD [] && kind3 h.kind) with _ | ex
    · -- create branch: a fresh row with an unseen dedup key is appended
      have hnone := List.find?_eq_none.mp hfind
      simp only [processAnn, h1, h2, hfind, Bool.false_eq_true, if_false, if_true]
      split <;>
      · refine ⟨?_, ?_⟩
        · intro h hh
          rcases List.mem_append.mp hh with hh | hh
          · exact Nat.lt_succ_of_lt (hlt h hh)
          · rw [List.mem_singleton] at hh
            rw [hh]
            exact Nat.lt_succ_self _
        · rw [List.pairwise_append]
          refine ⟨hpw, List.pairwise_singleton _ _, ?_⟩
          intro x hx y hy
          rw [List.mem_singleton] at hy
          subst hy
          refine ⟨Nat.ne_of_lt (hlt x hx), ?_⟩
          intro hcl
          apply hnone x hx
          rw [hcl.2.2.2]
          simp [hcl.1, hcl.2.1]
    · -- merge branch: the matched row is replaced by its backfilled form
      have hex : ex ∈ acc.1.highlights := List.mem_of_find?_eq_some hfind
      have hbf := backfill_fields ex a
      have hkey : ∀ x ∈ acc.1.highlights,
          hlKey (if x.id == ex.id then backfillHighlight ex a else x) = hlKey x := by
        intro x hx
        split
        next heq =>
          have hxeq : x = ex :=
            eq_of_mem_id hpw x hx ex hex (by simpa using heq)
          rw [hlKey, hlKey, hbf.1, hbf.2.1, hbf.2.2.2, hbf.2.2.1, hxeq]
        next => rfl
      simp only [processAnn, h1, h2, hfind, Bool.false_eq_true, if_false, if_true]
      repeat' split
      all_goals
      · refine ⟨?_, ?_⟩
        · intro h hh
          rw [List.mem_map] at hh
          obtain ⟨x, hx, rfl⟩ := hh
          have hid : (if x.id == ex.id then backfillHighlight ex a else x).id = x.id :=
            congrArg (fun p => p.1) (hkey x hx)
          rw [hid]
          exact hlt x hx
        · rw [List.pairwise_map]
          exact hpw.imp_of_mem (fun hx hy hr =>
            invRel_of_keys (hkey _ hx) (hkey _ hy) hr)
  · simp only [processAnn, h1, h2, Bool.false_eq_true, if_false]
    exact ⟨hlt, hpw⟩
/-- The book phase never touches highlight rows or the id counter. -/
theorem importBookPhase_inv {s : Store} {parsed : ParsedFile} {path : Str}
    (h : StoreInv s) : StoreInv (importBookPhase s parsed path).1 := by
  rw [importBookPhase]
  split <;> exact ⟨h.1, h.2⟩
/-- Folding `processAnn` over the annotations of one file preserves the
invariant. -/
theorem foldl_processAnn_inv {bid : Nat} {dev : Str} :
    ∀ (anns : List ParserAnn) (acc : Store × Nat), StoreInv acc.1 →
      StoreInv ((anns.foldl (processAnn bid dev) acc)).1 := by
  intro anns
  induction anns with
  | nil => intro acc h; exact h
  | cons a t ih =>
    intro acc h
    rw [List.foldl_cons]
    exact ih _ (processAnn_inv h)
/-- `import_file` preserves the invariant. -/
theorem importFile_inv {s : Store} {content : Option Str} {path dev : Str}
    (h : StoreInv s) : StoreInv (importFile s content path dev).1 := by
  rcases content with _ | text
  · exact h
  · rw [importFile]
    exact foldl_processAnn_inv _ _ (importBookPhase_inv h)
/-- Folding `import_file` over discovered files preserves the
invariant. -/
theorem foldl_importFile_inv :
    ∀ (files : List (Option Str × Str × Str)) (s : Store), StoreInv s →
      StoreInv (files.foldl (fun s f => (importFile s f.1 f.2.1 f.2.2).1) s) := by
  intro files
  induction files with
  | nil => intro s h; exact h
  | cons f t ih =>
    intro s h
    rw [List.foldl_cons]
    exact ih _ (importFile_inv h)
/-- Every store reachable by scans from the empty store satisfies the
invariant. -/
theorem runImports_inv (files : List (Option Str × Str × Str)) :
    StoreInv (runImports files) := by
  rw [runImports]
  exact foldl_importFile_inv files emptyStore
    ⟨fun h hh => by simp [emptyStore] at hh, List.Pairwise.nil⟩
/-- A pairwise-incompatible predicate selects at most one element. -/
theorem length_filter_le_one_of_pairwise {p : DBHighlight → Bool}
    {R : DBHighlight → DBHighlight → Prop} :
    ∀ {l : List DBHighlight}, l.Pairwise R →
      (∀ x y, p x = true → p y = true → R x y → False) →
      (l.filter p).length ≤ 1 := by
  intro l
  induction l with
  | nil => intro _ _; simp
  | cons a t ih =>
    intro hpw hcon
    rw [List.pairwise_cons] at hpw
    rw [List.filter_cons]
    by_cases hpa : p a = true
    · rw [if_pos hpa]
      have ht : t.filter p = [] := by
        rw [List.filter_eq_nil_iff]
        intro x hx hpx
        exact hcon a x hpa hpx (hpw.1 x hx)
      rw [ht]
      simp
    · rw [if_neg hpa]
      exact ih hpw.2 hcon
/-! ## Claim C3: per-book text uniqueness and cross-device merging -/
set_option maxRecDepth 40000 in
/-- C3: after any sequence of imports from the empty store, no two
highlight rows of the same book with kinds among the three deduplicated
ones share their text; and the concrete two-device scenario (same
checksum, devices `deviceA` and `deviceB`, identical text) yields
exactly one Highlight row carrying both device associations. -/
theorem spec2proof_c3 :
    (∀ files : List (Option Str × Str × Str),
        (runImports files).highlights.Pairwise
          (fun h1 h2 => h1.book_id = h2.book_id → kind3 h1.kind = true →
            kind3 h2.kind = true → h1.text ≠ h2.text)) ∧
    ((runImports
        [(some fileDevShared, strOf "A/metadata.x.lua", strOf "deviceA"),
         (some fileDevShared, strOf "B/metadata.x.lua", strOf "deviceB")]).highlights.map
        (fun h => (h.text, h.kind)) =
      [(strOf "Same text", HighlightKind.highlight)]) ∧
    (runImports
        [(some fileDevShared, strOf "A/metadata.x.lua", strOf "deviceA"),
         (some fileDevShared, strOf "B/metadata.x.lua", strOf "deviceB")]).highlight_devices =
      [(0, strOf "deviceA"), (0, strOf "deviceB")] := by
  refine ⟨?_, by decide, by decide⟩
  intro files
  exact (runImports_inv files).2.imp
    (fun hr hb hk1 hk2 hteq => hr.2 ⟨hb, hk1, hk2, hteq⟩)
/-! ## Claim C9: absent text persists as the empty string and merges -/
set_option maxRecDepth 40000 in
/-- C9: within one book at most one highlight row of the deduplicated
kinds carries empty text, after any import sequence from the empty
store; concretely, a text-less `highlight_empty` and a text-less
`highlight_no_position` from two different devices (different pages and
positions) merge into a single empty-text row carrying both devices. -/
theorem spec2proof_c9 :
    (∀ (files : List (Option Str × Str × Str)) (bid : Nat),
        ((runImports files).highlights.filter
          (fun h => h.book_id == bid && kind3 h.kind && h.text == ([] : Str))).length ≤ 1) ∧
    ((runImports
        [(some fileNoText1, strOf "A/metadata.x.lua", strOf "d1"),
         (some fileNoText2, strOf "B/metadata.x.lua", strOf "d2")]).highlights.map
        (fun h => (h.text, h.kind, h.book_id)) =
      [(([] : Str), HighlightKind.highlight_empty, 0)]) ∧
    (runImports
        [(some fileNoText1, strOf "A/metadata.x.lua", strOf "d1"),
         (some fileNoText2, strOf "B/metadata.x.lua", strOf "d2")]).highlight_devices =
      [(0, strOf "d1"), (0, strOf "d2")] := by
  refine ⟨?_, by decide, by decide⟩
  intro files bid
  refine length_filter_le_one_of_pairwise (runImports_inv files).2 ?_
  intro x y hx hy hr
  simp only [Bool.and_eq_true, beq_iff_eq] at hx hy
  exact hr.2 ⟨hx.1.1.trans hy.1.1.symm, hx.1.2, hy.1.2, hx.2.trans hy.2.symm⟩
/-! ## Claims C1 and C8: the title-normalization mismatch

The lookup at `tasks.py` lines 167-170/175-178 compares the
whitespace-collapsed, stripped, lowercased `norm_title` against the
stored titles only lowercased (`func.lower(...)`), so a checksum-less
book whose title candidate contains a collapsible whitespace run (for
example a double space) can never be found again by the fallback
lookup. -/
set_option maxRecDepth 100000 in
/-- C1, evaluated at the failing input: importing `fileWsTitle` (no
checksum, title `A  B`) twice from the same device against the empty
store creates one Highlight on the first call but ANOTHER one on the
second call (on a freshly created duplicate Book), where the claim
requires 0 — the normalized probe `a b` never matches the stored title
`A  B`, which is only lowercased to `a  b` by the lookup. -/
theorem spec2proof_c1 :
    (importFile emptyStore (some fileWsTitle) (strOf "dev/metadata.x.lua")
        (strOf "d1")).2 = 1 ∧
    (importFile emptyStore (some fileWsTitle) (strOf "dev/metadata.x.lua")
        (strOf "d1")).1.highlights.length = 1 ∧
    (importFile emptyStore (some fileWsTitle) (strOf "dev/metadata.x.lua")
        (strOf "d1")).1.books.length = 1 ∧
    (importFile
        (importFile emptyStore (some fileWsTitle) (strOf "dev/metadata.x.lua")
          (strOf "d1")).1
        (some fileWsTitle) (strOf "dev/metadata.x.lua") (strOf "d1")).2 = 1 ∧
    (importFile
        (importFile emptyStore (some fileWsTitle) (strOf "dev/metadata.x.lua")
          (strOf "d1")).1
        (some fileWsTitle) (strOf "dev/metadata.x.lua") (strOf "d1")).1.highlights.length = 2 ∧
    (importFile
        (importFile emptyStore (some fileWsTitle) (strOf "dev/metadata.x.lua")
          (strOf "d1")).1
        (some fileWsTitle) (strOf "dev/metadata.x.lua") (strOf "d1")).1.books.length = 2 := by
  refine ⟨by decide, by decide, by decide, by decide, by decide, by decide⟩
set_option maxRecDepth 100000 in
/-- C8, evaluated at the failing input: two checksum-less files with the
SAME (hence same normalized) title `A  B` do not resolve to one Book —
the import creates two Book rows, which moreover share the identical
64-character fallback key, breaking key uniqueness; the claim requires a
single Book in this situation. -/
theorem spec2proof_c8 :
    (runImports
        [(some fileWsTitle, strOf "A/metadata.x.lua", strOf "d1"),
         (some fileWsTitle, strOf "B/metadata.x.lua", strOf "d2")]).books.map
        (fun b => (b.raw_title, b.checksum)) =
      [(some (strOf "A  B"), sha256HexOfStr (strOf "a b")),
       (some (strOf "A  B"), sha256HexOfStr (strOf "a b"))] ∧
    (sha256HexOfStr (strOf "a b")).length = 64 := by
  refine ⟨by decide, by decide⟩

/-- Witness for C10: a block with no recognized field yields nothing,
and a parsed annotation from a one-field block has that field present. -/
theorem spec2proof_c10_witness :
    parseAnnBlock (strOf "nothing recognized here") = none ∧
    (({ text := some (strOf "hi") } : ParserAnn).chapter ≠ none ∨
     ({ text := some (strOf "hi") } : ParserAnn).color ≠ none ∨
     ({ text := some (strOf "hi") } : ParserAnn).datetime ≠ none ∨
     ({ text := some (strOf "hi") } : ParserAnn).page ≠ none ∨
     ({ text := some (strOf "hi") } : ParserAnn).text ≠ none ∨
     ({ text := some (strOf "hi") } : ParserAnn).drawer ≠ none ∨
     ({ text := some (strOf "hi") } : ParserAnn).pos0 ≠ none ∨
     ({ text := some (strOf "hi") } : ParserAnn).pos1 ≠ none ∨
     ({ text := some (strOf "hi") } : ParserAnn).pageno ≠ none) :=
  ⟨spec2proof_c10.1 _ (by decide) (by decide) (by decide) (by decide) (by decide)
      (by decide) (by decide) (by decide) (by decide),
    spec2proof_c10.2.1 (strOf "[1] = \x7b\n[\"text\"] = \"hi\"\n\x7d") _ (by decide)⟩
